import Mathlib

/- Shallow embedding of the task-tracker CLI (src/cli/main.py).

Modelling conventions:
* Text is `List Char` (abbreviated `Str`); the source iterates over the
  characters of its strings.
* Timestamps are `Int`, measured in seconds, so `timedelta(days=1)` is
  86400 seconds.  Only the order of timestamps and the exact offsets added
  by relative due dates matter to the properties below, so any
  order-embedding of `datetime` values is adequate.
* `datetime.now()` is modelled by passing the sampled instants explicitly,
  one parameter per call site, in call order; clocks are monotone, which
  appears as a hypothesis where needed.
* The Python dict of tasks is an association list with `Nat` keys: the dict
  keys are the decimal strings of these numbers, and every comparison the
  source performs on them goes through `int`.
* `datetime.strptime` over the six absolute formats is a library call, not
  repository code; operations that may invoke it take its behaviour as an
  explicit function parameter `strp` (`none` models the `ValueError` of a
  failed parse) and the theorems quantify over that parameter.
* Python's stable `list.sort` with a tuple key is modelled by
  `List.insertionSort` (also stable) on the corresponding lexicographic
  relation; `reverse=True` is modelled by flipping the relation, which
  agrees with CPython's descending stable sort because the tuple keys of
  records with distinct ids are distinct.
-/

namespace CLI

abbrev Str := List Char

/-- Per-character display width (source: `get_display_width`, the branch on
one character): 2 on the four designated CJK ranges, 1 otherwise. -/
def char_display_width (c : Char) : Nat :=
  if (0x4e00 ≤ c.toNat ∧ c.toNat ≤ 0x9fff)
      ∨ (0x3400 ≤ c.toNat ∧ c.toNat ≤ 0x4dbf)
      ∨ (0xf900 ≤ c.toNat ∧ c.toNat ≤ 0xfaff)
      ∨ (0x3000 ≤ c.toNat ∧ c.toNat ≤ 0x303f)
  then 2 else 1

/-- Display width of a string (source: `get_display_width`): the sum of the
per-character widths, accumulated over the characters. -/
def get_display_width : Str → Nat
  | [] => 0
  | c :: cs => char_display_width c + get_display_width cs

/-- Source: `pad_text(text, width, align='left')`. -/
def pad_text (text : Str) (width : Nat) (align : String) : Str :=
  let text_width := get_display_width text
  if text_width ≥ width then text
  else
    let padding := width - text_width
    if align = "left" then text ++ List.replicate padding ' '
    else if align = "right" then List.replicate padding ' ' ++ text
    else
      let left_padding := padding / 2
      let right_padding := padding - left_padding
      List.replicate left_padding ' ' ++ text ++ List.replicate right_padding ' '

/-- One task record (source: the dict built in `add_task`).  `status` is the
status string; the program only ever stores "todo", "in-progress" and
"done". -/
structure Task where
  description : Str
  status : String
  createdAt : Int
  updatedAt : Int
  dueDate : Option Int
deriving DecidableEq, Repr

/-- The in-memory store `self.tasks`: a dict from numeric-string id to
record, as an association list in insertion order. -/
abbrev Store := List (Nat × Task)

/-- Result of one mutating operation: the store afterwards, whether
`save_tasks` ran, and the boolean the method returned. -/
structure OpResult where
  tasks : Store
  saved : Bool
  ok : Bool
deriving DecidableEq, Repr

/-- ASCII decimal digit test, used by the model of Python's `int`. -/
def is_ascii_digit (c : Char) : Bool :=
  decide (48 ≤ c.toNat ∧ c.toNat ≤ 57)

/-- Python `str.strip` whitespace test (the ASCII whitespace characters;
`int` also strips some unicode spaces, which no claim exercises). -/
def is_py_space (c : Char) : Bool :=
  decide (c.toNat = 32 ∨ (9 ≤ c.toNat ∧ c.toNat ≤ 13))

/-- Strip leading and trailing whitespace, as Python's `int` does. -/
def py_trim (s : Str) : Str :=
  ((s.dropWhile is_py_space).reverse.dropWhile is_py_space).reverse

/-- Decimal value of a digit string, most significant digit first. -/
def digits_value (ds : Str) : Nat :=
  ds.foldl (fun a c => a * 10 + (c.toNat - 48)) 0

/-- Model of Python's `int(str)`: optional surrounding whitespace, optional
sign, then one or more decimal digits; `none` models the `ValueError`.
(Underscore digit grouping is omitted; no repository input uses it.) -/
def py_int (s : Str) : Option Int :=
  match py_trim s with
  | [] => none
  | c :: cs =>
    if c = '-' then
      if cs ≠ [] ∧ cs.all is_ascii_digit then some (-(digits_value cs : Int)) else none
    else if c = '+' then
      if cs ≠ [] ∧ cs.all is_ascii_digit then some (digits_value cs : Int) else none
    else if (c :: cs).all is_ascii_digit then some (digits_value (c :: cs) : Int)
    else none

/-- Source: `parse_relative_date(relative_str)`.  `value_str` is
`relative_str[1:-1]`, the unit is the lower-cased last character; `+Nd`
adds N days, `+Nw` adds N weeks (7N days), `+Nm` adds 30N days.  Every
failure path (IndexError on `[-1]`, ValueError from `int`, unknown unit) is
caught by the function's own `except` clause and becomes the one "Invalid
relative date format" error. -/
def parse_relative_date (relative_str : Str) (now : Int) : Except String Int :=
  match relative_str.getLast? with
  | none => .error "Invalid relative date format"
  | some last =>
    match py_int ((relative_str.drop 1).dropLast) with
    | none => .error "Invalid relative date format"
    | some value =>
      let unit := last.toLower
      if unit = 'd' then .ok (now + value * 86400)
      else if unit = 'w' then .ok (now + value * 7 * 86400)
      else if unit = 'm' then .ok (now + value * 30 * 86400)
      else .error "Invalid relative date format"

/-- Source: `parse_due_date(due_date_str)`: try the six absolute formats
(the `strp` parameter: the behaviour of `datetime.strptime` over them),
then, if the token starts with `+`, the relative parser, else fail. -/
def parse_due_date (strp : Str → Option Int) (due_date_str : Str) (now : Int) :
    Except String Int :=
  match strp due_date_str with
  | some d => .ok d
  | none =>
    if due_date_str.head? = some '+' then parse_relative_date due_date_str now
    else .error "Invalid due date format"

/-- Fresh id in `add_task`: `str(max([int(k) for k in keys] + [0]) + 1)`. -/
def next_id (tasks : Store) : Nat :=
  (tasks.map Prod.fst).foldr max 0 + 1

/-- In-place mutation of one dict entry (source: the
`self.tasks[task_id][...] = ...` assignments). -/
def set_task (tasks : Store) (task_id : Nat) (t : Task) : Store :=
  tasks.map fun p => if p.1 = task_id then (task_id, t) else p

/-- Source: `add_task(description, due_date=None)`.  An empty description
fails before anything else; a supplied (truthy, i.e. non-empty) due-date
token is parsed before the record is created; the record stamps `createdAt`
and `updatedAt` with two separate `datetime.now()` calls, modelled by the
two instants `t_created` and `t_updated`.  (The source's
`if not parsed_due_date` re-check is dead code: `datetime` objects are
always truthy.) -/
def add_task (strp : Str → Option Int) (tasks : Store) (description : Str)
    (due_date : Option Str) (t_parse t_created t_updated : Int) : OpResult :=
  if description = [] then ⟨tasks, false, false⟩
  else
    let task_id := next_id tasks
    match due_date with
    | none =>
      ⟨tasks ++ [(task_id, ⟨description, "todo", t_created, t_updated, none⟩)], true, true⟩
    | some d =>
      if d = [] then
        ⟨tasks ++ [(task_id, ⟨description, "todo", t_created, t_updated, none⟩)], true, true⟩
      else
        match parse_due_date strp d t_parse with
        | .error _ => ⟨tasks, false, false⟩
        | .ok pd =>
          ⟨tasks ++ [(task_id, ⟨description, "todo", t_created, t_updated, some pd⟩)],
            true, true⟩

/-- Source: `update_task(task_id, new_description, due_date=None)`: unknown
id fails, then empty description fails, then a supplied non-empty token is
parsed; only then are description and `updatedAt` written, and `dueDate` is
written exactly when `due_date is not None` (the empty token clears it). -/
def update_task (strp : Str → Option Int) (tasks : Store) (task_id : Nat)
    (new_description : Str) (due_date : Option Str) (t_parse t_updated : Int) : OpResult :=
  match tasks.lookup task_id with
  | none => ⟨tasks, false, false⟩
  | some old =>
    if new_description = [] then ⟨tasks, false, false⟩
    else
      match due_date with
      | none =>
        let t2 := { old with description := new_description, updatedAt := t_updated }
        ⟨set_task tasks task_id t2, true, true⟩
      | some d =>
        if d = [] then
          let t2 := { old with description := new_description, updatedAt := t_updated, dueDate := (none : Option Int) }
          ⟨set_task tasks task_id t2, true, true⟩
        else
          match parse_due_date strp d t_parse with
          | .error _ => ⟨tasks, false, false⟩
          | .ok pd =>
            let t2 := { old with description := new_description, updatedAt := t_updated, dueDate := some pd }
            ⟨set_task tasks task_id t2, true, true⟩

/-- Source: `delete_task(task_id)`: unknown id fails, otherwise the entry is
removed from the dict. -/
def delete_task (tasks : Store) (task_id : Nat) : OpResult :=
  match tasks.lookup task_id with
  | none => ⟨tasks, false, false⟩
  | some _ => ⟨tasks.filter (fun p => p.1 != task_id), true, true⟩

/-- Source: `_update_status(task_id, status)`: unknown id fails, otherwise
the status is set unconditionally and `updatedAt` refreshed. -/
def update_status (tasks : Store) (task_id : Nat) (status : String) (t_updated : Int) :
    OpResult :=
  match tasks.lookup task_id with
  | none => ⟨tasks, false, false⟩
  | some old =>
    ⟨set_task tasks task_id { old with status := status, updatedAt := t_updated }, true, true⟩

/-- Source: `mark_in_progress(task_id)`. -/
def mark_in_progress (tasks : Store) (task_id : Nat) (t_updated : Int) : OpResult :=
  update_status tasks task_id "in-progress" t_updated

/-- Source: `mark_done(task_id)`. -/
def mark_done (tasks : Store) (task_id : Nat) (t_updated : Int) : OpResult :=
  update_status tasks task_id "done" t_updated

/-- Non-strict lexicographic order on a (timestamp, numeric id) pair, the
shape of the tuple keys Python's sort compares. -/
def le2 (p q : Int × Nat) : Prop :=
  p.1 < q.1 ∨ (p.1 = q.1 ∧ p.2 ≤ q.2)

/-- Non-strict lexicographic order on (rank, timestamp, numeric id). -/
def le3 (p q : Nat × Int × Nat) : Prop :=
  p.1 < q.1 ∨ (p.1 = q.1 ∧ le2 p.2 q.2)

instance (p q : Int × Nat) : Decidable (le2 p q) := by
  unfold le2; infer_instance

instance (p q : Nat × Int × Nat) : Decidable (le3 p q) := by
  unfold le3; infer_instance

/-- Sort key of the `due` branch: the source compares the tuple
`(datetime.max if dueDate is None else dueDate, int(id))`.  A present due
date (always strictly below `datetime.max`: it came out of a bounded parse)
gets rank 0, an absent one the `datetime.max` sentinel rank 1. -/
def due_key (x : Nat × Task) : Nat × Int × Nat :=
  match x.2.dueDate with
  | some d => (0, d, x.1)
  | none => (1, 0, x.1)

/-- Sort key of the `created` branch before `reverse=True`. -/
def created_key (x : Nat × Task) : Int × Nat :=
  (x.2.createdAt, x.1)

/-- Sort key of the `updated` branch before `reverse=True`. -/
def updated_key (x : Nat × Task) : Int × Nat :=
  (x.2.updatedAt, x.1)

/-- The `status_order` table (`todo` 0, `in-progress` 1, `done` 2).  Any
other string raises `KeyError` in the source and never occurs in records
this program creates; rank 3 is the embedding's value for that unreachable
case. -/
def status_rank (s : String) : Nat :=
  if s = "todo" then 0 else if s = "in-progress" then 1
  else if s = "done" then 2 else 3

/-- Ordering of the `due` branch (also the default branch). -/
def le_due (a b : Nat × Task) : Prop :=
  le3 (due_key a) (due_key b)

/-- Ordering of the `created` branch: ascending tuple key, then
`reverse=True`, i.e. the flipped relation. -/
def le_created (a b : Nat × Task) : Prop :=
  le2 (created_key b) (created_key a)

/-- Ordering of the `updated` branch: flipped like `le_created`. -/
def le_updated (a b : Nat × Task) : Prop :=
  le2 (updated_key b) (updated_key a)

/-- Ordering of the `status` branch: status rank, then the `due` key. -/
def le_status (a b : Nat × Task) : Prop :=
  status_rank a.2.status < status_rank b.2.status
    ∨ (status_rank a.2.status = status_rank b.2.status ∧ le3 (due_key a) (due_key b))

/-- Ordering of the `id` branch. -/
def le_id (a b : Nat × Task) : Prop :=
  a.1 ≤ b.1

instance : DecidableRel le_due := fun a b => by
  unfold le_due; infer_instance

instance : DecidableRel le_created := fun a b => by
  unfold le_created; infer_instance

instance : DecidableRel le_updated := fun a b => by
  unfold le_updated; infer_instance

instance : DecidableRel le_status := fun a b => by
  unfold le_status; infer_instance

instance : DecidableRel le_id := fun a b => by
  unfold le_id; infer_instance

/-- Source: `sort_tasks(tasks_dict, sort_by='due')`, the if/elif chain on
the sort key with its fall-through default. -/
def sort_tasks (tasks_dict : Store) (sort_by : String) : Store :=
  if sort_by = "due" then List.insertionSort le_due tasks_dict
  else if sort_by = "created" then List.insertionSort le_created tasks_dict
  else if sort_by = "updated" then List.insertionSort le_updated tasks_dict
  else if sort_by = "status" then List.insertionSort le_status tasks_dict
  else if sort_by = "id" then List.insertionSort le_id tasks_dict
  else List.insertionSort le_due tasks_dict

/-- The truncation loop of `list_tasks`: take characters while the
accumulated width stays within the limit, stop at the first character that
would overflow it. -/
def truncate_loop (limit : Nat) (current : Nat) : Str → Str
  | [] => []
  | c :: cs =>
    if current + char_display_width c ≤ limit then
      c :: truncate_loop limit (current + char_display_width c) cs
    else []

/-- Description cell of one row (source: `list_tasks`, the truncation
block): descriptions wider than the 30-column budget are cut at width
30 - 3 and get the three-dot ellipsis appended. -/
def desc_cell (desc : Str) : Str :=
  if get_display_width desc > 30 then truncate_loop (30 - 3) 0 desc ++ "...".data
  else desc

/-- Due-date cell of one row (source: `list_tasks`, the due-date block).
`fmt` is the behaviour of `strftime('%m/%d %H:%M')`, a library call; the
cell is "No due date" when the field is absent, and the formatted stamp,
wrapped in asterisks when the task is overdue and not done, otherwise. -/
def due_cell (fmt : Int → Str) (task : Task) (now : Int) : Str :=
  match task.dueDate with
  | none => "No due date".data
  | some d =>
    if d < now ∧ task.status ≠ "done" then '*' :: fmt d ++ ['*'] else fmt d

/- ### Order-theoretic facts about the sort relations -/

theorem le2_total (p q : Int × Nat) : le2 p q ∨ le2 q p := by
  unfold le2; omega

theorem le2_trans (p q r : Int × Nat) : le2 p q → le2 q r → le2 p r := by
  unfold le2; omega

theorem le3_total (p q : Nat × Int × Nat) : le3 p q ∨ le3 q p := by
  unfold le3 le2; omega

theorem le3_trans (p q r : Nat × Int × Nat) : le3 p q → le3 q r → le3 p r := by
  unfold le3 le2; omega

instance : IsTotal (Nat × Task) le_due :=
  ⟨fun a b => le3_total (due_key a) (due_key b)⟩

instance : IsTrans (Nat × Task) le_due :=
  ⟨fun _ _ _ h1 h2 => le3_trans _ _ _ h1 h2⟩

instance : IsTotal (Nat × Task) le_created :=
  ⟨fun a b => le2_total (created_key b) (created_key a)⟩

instance : IsTrans (Nat × Task) le_created :=
  ⟨fun _ _ _ h1 h2 => le2_trans _ _ _ h2 h1⟩

instance : IsTotal (Nat × Task) le_updated :=
  ⟨fun a b => le2_total (updated_key b) (updated_key a)⟩

instance : IsTrans (Nat × Task) le_updated :=
  ⟨fun _ _ _ h1 h2 => le2_trans _ _ _ h2 h1⟩

/-- A sorted permutation of a list with pairwise-distinct ids is pairwise
ordered by the relation strengthened with distinctness of the ids. -/
theorem sorted_nodup_pairwise {r : Nat × Task → Nat × Task → Prop} {l s : Store}
    (hperm : s.Perm l) (hs : List.Sorted r s) (hn : (l.map Prod.fst).Nodup) :
    s.Pairwise (fun a b => r a b ∧ a.1 ≠ b.1) := by
  have hns : (s.map Prod.fst).Nodup := (hperm.map Prod.fst).nodup_iff.mpr hn
  have hps : s.Pairwise (fun a b => a.1 ≠ b.1) := List.pairwise_map.mp hns
  exact hs.and hps

/-- C1, counterexample: two records with equal creation timestamps come out
with the larger numeric id first (`reverse=True` flips the id tiebreak of
the ascending tuple key too), not in ascending id order as claimed. -/
theorem c1_counterexample_created_ties_descend :
    (⟨['a'], "todo", 5, 0, none⟩ : Task).createdAt
        = (⟨['b'], "todo", 5, 0, none⟩ : Task).createdAt
    ∧ sort_tasks [(1, ⟨['a'], "todo", 5, 0, none⟩), (2, ⟨['b'], "todo", 5, 0, none⟩)]
          "created"
        = [(2, ⟨['b'], "todo", 5, 0, none⟩), (1, ⟨['a'], "todo", 5, 0, none⟩)] := by
  constructor
  · rfl
  · decide

/-- C1 (amended): sorting with key `created` (resp. `updated`) orders
records with distinct timestamps newest first and records with equal
timestamps by descending numeric id, because `reverse=True` reverses the
whole ascending `(timestamp, id)` tuple order, the id tiebreak included. -/
theorem c1_sorting_created_updated (l : Store) (h : (l.map Prod.fst).Nodup) :
    (sort_tasks l "created").Pairwise
      (fun a b => b.2.createdAt < a.2.createdAt
        ∨ (a.2.createdAt = b.2.createdAt ∧ b.1 < a.1))
    ∧ (sort_tasks l "updated").Pairwise
      (fun a b => b.2.updatedAt < a.2.updatedAt
        ∨ (a.2.updatedAt = b.2.updatedAt ∧ b.1 < a.1)) := by
  constructor
  · have e : sort_tasks l "created" = List.insertionSort le_created l := by
      simp [sort_tasks]
    rw [e]
    have hp := sorted_nodup_pairwise (List.perm_insertionSort le_created l)
      (List.sorted_insertionSort le_created l) h
    refine hp.imp ?_
    intro a b hab
    obtain ⟨hr, hne⟩ := hab
    simp only [le_created, le2, created_key] at hr
    omega
  · have e : sort_tasks l "updated" = List.insertionSort le_updated l := by
      simp [sort_tasks]
    rw [e]
    have hp := sorted_nodup_pairwise (List.perm_insertionSort le_updated l)
      (List.sorted_insertionSort le_updated l) h
    refine hp.imp ?_
    intro a b hab
    obtain ⟨hr, hne⟩ := hab
    simp only [le_updated, le2, updated_key] at hr
    omega

/-- Witness for the amended C1 at a concrete two-element store. -/
theorem c1_witness :
    (sort_tasks [(1, ⟨['a'], "todo", 5, 3, none⟩), (2, ⟨['b'], "todo", 5, 4, none⟩)]
        "created").Pairwise
      (fun a b => b.2.createdAt < a.2.createdAt
        ∨ (a.2.createdAt = b.2.createdAt ∧ b.1 < a.1))
    ∧ (sort_tasks [(1, ⟨['a'], "todo", 5, 3, none⟩), (2, ⟨['b'], "todo", 5, 4, none⟩)]
        "updated").Pairwise
      (fun a b => b.2.updatedAt < a.2.updatedAt
        ∨ (a.2.updatedAt = b.2.updatedAt ∧ b.1 < a.1)) :=
  c1_sorting_created_updated
    [(1, ⟨['a'], "todo", 5, 3, none⟩), (2, ⟨['b'], "todo", 5, 4, none⟩)] (by decide)

/-- C3: sorting with key `due` (and with any unrecognized key, which takes
the same default branch) puts every record without a due date after every
record with one regardless of ids, orders records that both have due dates
ascending by due date with ties broken by ascending numeric id, and orders
records that both lack one by ascending numeric id. -/
theorem c3_sort_due_and_default :
    (∀ l : Store, (l.map Prod.fst).Nodup →
      (sort_tasks l "due").Pairwise (fun a b =>
        match a.2.dueDate, b.2.dueDate with
        | some da, some db => da < db ∨ (da = db ∧ a.1 < b.1)
        | some _, none => True
        | none, some _ => False
        | none, none => a.1 < b.1))
    ∧ (∀ s : String, s ≠ "created" → s ≠ "updated" → s ≠ "status" → s ≠ "id" →
        ∀ l : Store, sort_tasks l s = sort_tasks l "due") := by
  constructor
  · intro l h
    have e : sort_tasks l "due" = List.insertionSort le_due l := rfl
    rw [e]
    have hp := sorted_nodup_pairwise (List.perm_insertionSort le_due l)
      (List.sorted_insertionSort le_due l) h
    refine hp.imp ?_
    intro a b hab
    obtain ⟨hr, hne⟩ := hab
    cases ha : a.2.dueDate with
    | none =>
      cases hb : b.2.dueDate with
      | none =>
        simp only [le_due, le3, le2, due_key, ha, hb] at hr
        simp only [ha, hb]
        omega
      | some db =>
        simp only [le_due, le3, le2, due_key, ha, hb] at hr
        simp only [ha, hb]
        omega
    | some da =>
      cases hb : b.2.dueDate with
      | none =>
        simp only [ha, hb]
      | some db =>
        simp only [le_due, le3, le2, due_key, ha, hb] at hr
        simp only [ha, hb]
        omega
  · intro s h1 h2 h3 h4 l
    by_cases h0 : s = "due"
    · rw [h0]
    · unfold sort_tasks
      rw [if_neg h0, if_neg h1, if_neg h2, if_neg h3, if_neg h4, if_pos rfl]

/-- Witness for C3: a concrete store with and without due dates, and a
concrete unrecognized sort key. -/
theorem c3_witness :
    (sort_tasks [(3, ⟨['a'], "todo", 0, 0, none⟩), (1, ⟨['b'], "todo", 0, 0, some 9⟩)]
        "due").Pairwise (fun a b =>
      match a.2.dueDate, b.2.dueDate with
      | some da, some db => da < db ∨ (da = db ∧ a.1 < b.1)
      | some _, none => True
      | none, some _ => False
      | none, none => a.1 < b.1)
    ∧ sort_tasks [(3, ⟨['a'], "todo", 0, 0, none⟩), (1, ⟨['b'], "todo", 0, 0, some 9⟩)]
          "zzz"
        = sort_tasks [(3, ⟨['a'], "todo", 0, 0, none⟩), (1, ⟨['b'], "todo", 0, 0, some 9⟩)]
          "due" :=
  ⟨c3_sort_due_and_default.1 _ (by decide),
    c3_sort_due_and_default.2 "zzz" (by decide) (by decide) (by decide) (by decide) _⟩

/-- Writing an entry that is present in the dict makes the written record
the one the dict returns for that key. -/
theorem lookup_set_task (tasks : Store) (task_id : Nat) (old t : Task)
    (h : tasks.lookup task_id = some old) :
    (set_task tasks task_id t).lookup task_id = some t := by
  induction tasks with
  | nil => simp at h
  | cons p ts ih =>
    obtain ⟨k, v⟩ := p
    by_cases hk : k = task_id
    · subst hk
      have e : set_task ((k, v) :: ts) k t = (k, t) :: set_task ts k t := by
        simp [set_task]
      rw [e, List.lookup_cons_self]
    · have hne : (task_id == k) = false := beq_eq_false_iff_ne.mpr (Ne.symm hk)
      have e : set_task ((k, v) :: ts) task_id t = (k, v) :: set_task ts task_id t := by
        simp [set_task, hk]
      rw [List.lookup_cons, hne] at h
      rw [e, List.lookup_cons, hne]
      exact ih h

/-- C2, counterexample: a task whose status is `done` leaves `done` as soon
as `mark-in-progress` is applied to it; the status is set back to
`in-progress` unconditionally. -/
theorem c2_counterexample_mark_in_progress_leaves_done :
    (mark_in_progress [(1, ⟨['a'], "done", 0, 0, none⟩)] 1 5).tasks.lookup 1
        = some ⟨['a'], "in-progress", 0, 5, none⟩
    ∧ ("in-progress" : String) ≠ "done" := by
  constructor
  · rfl
  · decide

/-- C2 (amended): the mark operations set the status unconditionally: on a
task whose status is `done`, `mark-done` keeps the status `done` (so a
sequence of `mark-done` operations never leaves `done`), but
`mark-in-progress` moves it back to `in-progress`; there is no guard
against leaving `done`. -/
theorem c2_mark_sets_status_unconditionally (tasks : Store) (task_id : Nat)
    (task : Task) (tU : Int) (h : tasks.lookup task_id = some task)
    (hdone : task.status = "done") :
    (mark_done tasks task_id tU).tasks.lookup task_id
        = some { task with updatedAt := tU }
    ∧ (mark_in_progress tasks task_id tU).tasks.lookup task_id
        = some { task with status := "in-progress", updatedAt := tU } := by
  constructor
  · unfold mark_done update_status
    rw [h]
    have e : { task with status := "done", updatedAt := tU }
        = { task with updatedAt := tU } := by
      obtain ⟨d, s, c, u, dd⟩ := task
      simp only at hdone
      rw [hdone]
    rw [← e]
    exact lookup_set_task tasks task_id task _ h
  · unfold mark_in_progress update_status
    rw [h]
    exact lookup_set_task tasks task_id task _ h

/-- Witness for the amended C2 at a concrete one-element store. -/
theorem c2_witness :
    (mark_done [(1, ⟨['a'], "done", 0, 0, none⟩)] 1 5).tasks.lookup 1
        = some ⟨['a'], "done", 0, 5, none⟩
    ∧ (mark_in_progress [(1, ⟨['a'], "done", 0, 0, none⟩)] 1 5).tasks.lookup 1
        = some ⟨['a'], "in-progress", 0, 5, none⟩ :=
  c2_mark_sets_status_unconditionally [(1, ⟨['a'], "done", 0, 0, none⟩)] 1
    ⟨['a'], "done", 0, 0, none⟩ 5 rfl rfl

/-- C4, counterexample: `createdAt` and `updatedAt` come from two separate
`datetime.now()` calls; when the clock advances between them (here from 0
to 1) the stored record has `createdAt` different from `updatedAt`, against
the claimed equality. -/
theorem c4_counterexample_two_clock_reads :
    (add_task (fun _ => none) [] ['a'] none 0 0 1).tasks
        = [(1, ⟨['a'], "todo", 0, 1, none⟩)]
    ∧ ((0 : Int) = 1 → False) := by
  constructor
  · rfl
  · decide

/-- C4 (amended): for every non-empty description, `add` creates a record
with status `todo` whose `createdAt` is at most its `updatedAt`; the two
fields come from two successive clock reads, so they are equal exactly when
those reads return the same instant, not always. -/
theorem c4_add_creates_todo_created_le_updated (strp : Str → Option Int)
    (tasks : Store) (description : Str) (tP t1 t2 : Int)
    (hd : description ≠ []) (hclock : t1 ≤ t2) :
    ∃ rec : Task,
      (add_task strp tasks description none tP t1 t2).tasks
          = tasks ++ [(next_id tasks, rec)]
      ∧ rec.status = "todo" ∧ rec.createdAt ≤ rec.updatedAt := by
  refine ⟨⟨description, "todo", t1, t2, none⟩, ?_, rfl, hclock⟩
  unfold add_task
  rw [if_neg hd]

/-- Witness for the amended C4 at a concrete non-empty description. -/
theorem c4_witness :
    ∃ rec : Task,
      (add_task (fun _ => none) [] ['a'] none 0 3 4).tasks = [] ++ [(next_id [], rec)]
      ∧ rec.status = "todo" ∧ rec.createdAt ≤ rec.updatedAt :=
  c4_add_creates_todo_created_le_updated (fun _ => none) [] ['a'] 0 3 4
    (by decide) (by decide)

/- ### Display width and truncation facts -/

theorem get_display_width_append (a b : Str) :
    get_display_width (a ++ b) = get_display_width a + get_display_width b := by
  induction a with
  | nil => simp [get_display_width]
  | cons c cs ih =>
    rw [List.cons_append]
    show char_display_width c + get_display_width (cs ++ b)
      = char_display_width c + get_display_width cs + get_display_width b
    rw [ih]
    omega

theorem char_display_width_pos (c : Char) : 0 < char_display_width c := by
  unfold char_display_width
  split <;> omega

/-- What the truncation loop returns: a prefix of its input whose
accumulated width stays within the limit, maximal in that the first
character left behind would push the accumulated width past the limit. -/
theorem truncate_loop_spec (limit : Nat) :
    ∀ (cs : Str) (cur : Nat),
      ∃ q, cs = truncate_loop limit cur cs ++ q
        ∧ (cur + get_display_width (truncate_loop limit cur cs) ≤ limit
            ∨ truncate_loop limit cur cs = [])
        ∧ ∀ c qs, q = c :: qs →
            limit < cur + get_display_width (truncate_loop limit cur cs)
              + char_display_width c := by
  intro cs
  induction cs with
  | nil =>
    intro cur
    exact ⟨[], rfl, Or.inr rfl, fun c qs hq => by cases hq⟩
  | cons c cs ih =>
    intro cur
    by_cases hfit : cur + char_display_width c ≤ limit
    · obtain ⟨q, hq, hle, hmax⟩ := ih (cur + char_display_width c)
      refine ⟨q, ?_, ?_, ?_⟩
      · simp only [truncate_loop, if_pos hfit]
        rw [List.cons_append, ← hq]
      · simp only [truncate_loop, if_pos hfit, get_display_width]
        rcases hle with hle | hnil
        · left; omega
        · rw [hnil]
          left
          simp only [get_display_width]
          omega
      · intro c2 qs hq2
        have := hmax c2 qs hq2
        simp only [truncate_loop, if_pos hfit, get_display_width]
        omega
    · refine ⟨c :: cs, ?_, ?_, ?_⟩
      · simp [truncate_loop, if_neg hfit]
      · right
        simp [truncate_loop, if_neg hfit]
      · intro c2 qs hq2
        cases hq2
        simp only [truncate_loop, if_neg hfit, get_display_width]
        omega

/-- C5: a description whose display width is within the 30-column budget is
rendered unchanged; a wider one is rendered as the greedy prefix of whole
characters whose accumulated display width stays within budget minus 3
(maximal: the next character would overflow that), followed by the
3-character ellipsis; and the rendered cell's width never exceeds the
budget. -/
theorem c5_description_truncation (d : Str) :
    (get_display_width d ≤ 30 → desc_cell d = d)
    ∧ (30 < get_display_width d →
        ∃ p c q, d = p ++ c :: q ∧ desc_cell d = p ++ "...".data
          ∧ get_display_width p ≤ 30 - 3
          ∧ 30 - 3 < get_display_width p + char_display_width c)
    ∧ get_display_width (desc_cell d) ≤ 30 := by
  by_cases h : 30 < get_display_width d
  · have e : desc_cell d = truncate_loop (30 - 3) 0 d ++ "...".data := by
      unfold desc_cell
      rw [if_pos h]
    obtain ⟨q, hq, hle, hmax⟩ := truncate_loop_spec (30 - 3) d 0
    have hwp : get_display_width (truncate_loop (30 - 3) 0 d) ≤ 30 - 3 := by
      rcases hle with hle | hnil
      · omega
      · rw [hnil]
        simp [get_display_width]
    refine ⟨fun hcon => absurd hcon (by omega), fun _ => ?_, ?_⟩
    · rcases q with _ | ⟨c, qs⟩
      · exfalso
        rw [List.append_nil] at hq
        rw [← hq] at hwp
        omega
      · refine ⟨truncate_loop (30 - 3) 0 d, c, qs, hq, e, hwp, ?_⟩
        have := hmax c qs rfl
        omega
    · rw [e, get_display_width_append]
      have : get_display_width "...".data = 3 := by decide
      omega
  · have e : desc_cell d = d := by
      unfold desc_cell
      rw [if_neg h]
    exact ⟨fun _ => e, fun hcon => absurd hcon h, by rw [e]; omega⟩

/-- Witness for C5: a 30-wide description is unchanged, a 31-wide one is
truncated to 27 characters plus the ellipsis. -/
theorem c5_witness :
    desc_cell (List.replicate 30 'a') = List.replicate 30 'a'
    ∧ ∃ p c q, List.replicate 31 'a' = p ++ c :: q
        ∧ desc_cell (List.replicate 31 'a') = p ++ "...".data
        ∧ get_display_width p ≤ 30 - 3
        ∧ 30 - 3 < get_display_width p + char_display_width c :=
  ⟨(c5_description_truncation (List.replicate 30 'a')).1 (by decide),
    (c5_description_truncation (List.replicate 31 'a')).2.1 (by decide)⟩

/-- C6: `pad_text` returns the text unchanged when its display width
reaches the target width, and otherwise appends, prepends, or splits
(smaller half left) exactly the missing number of spaces according to the
alignment. -/
theorem c6_pad_text (text : Str) (width : Nat) :
    (width ≤ get_display_width text → ∀ align, pad_text text width align = text)
    ∧ (get_display_width text < width →
        pad_text text width "left"
            = text ++ List.replicate (width - get_display_width text) ' '
        ∧ pad_text text width "right"
            = List.replicate (width - get_display_width text) ' ' ++ text
        ∧ pad_text text width "center"
            = List.replicate ((width - get_display_width text) / 2) ' ' ++ text
              ++ List.replicate ((width - get_display_width text)
                  - (width - get_display_width text) / 2) ' ') := by
  constructor
  · intro h align
    unfold pad_text
    rw [if_pos h]
  · intro h
    have hn : ¬ get_display_width text ≥ width := by omega
    refine ⟨?_, ?_, ?_⟩
    · unfold pad_text
      rw [if_neg hn, if_pos rfl]
    · unfold pad_text
      rw [if_neg hn, if_neg (by decide : ¬("right" : String) = "left"), if_pos rfl]
    · unfold pad_text
      rw [if_neg hn, if_neg (by decide : ¬("center" : String) = "left"),
        if_neg (by decide : ¬("center" : String) = "right")]

/-- Witness for C6: the spec's own example, `pad_text("AB", 5, center)`,
with one space on the left and two on the right. -/
theorem c6_witness :
    get_display_width ['A', 'B'] < 5
    ∧ pad_text ['A', 'B'] 5 "center" = [' ', 'A', 'B', ' ', ' '] :=
  ⟨by decide, (((c6_pad_text ['A', 'B'] 5).2 (by decide)).2.2).trans (by decide)⟩

/- ### Facts about the model of the int library function -/

theorem dropWhile_space_of_digits (l : Str)
    (h : ∀ c ∈ l, is_ascii_digit c = true) :
    l.dropWhile is_py_space = l := by
  cases l with
  | nil => rfl
  | cons c cs =>
    have hc := h c (List.mem_cons_self c cs)
    have hs : is_py_space c = false := by
      simp only [is_ascii_digit, decide_eq_true_eq] at hc
      simp only [is_py_space, decide_eq_false_iff_not]
      omega
    simp [List.dropWhile, hs]

theorem py_trim_of_digits (ds : Str) (h : ∀ c ∈ ds, is_ascii_digit c = true) :
    py_trim ds = ds := by
  unfold py_trim
  rw [dropWhile_space_of_digits ds h]
  rw [dropWhile_space_of_digits ds.reverse (fun c hc => h c (List.mem_reverse.mp hc))]
  exact List.reverse_reverse ds

theorem py_int_of_digits (ds : Str) (hne : ds ≠ [])
    (h : ∀ c ∈ ds, is_ascii_digit c = true) :
    py_int ds = some (digits_value ds : Int) := by
  unfold py_int
  rw [py_trim_of_digits ds h]
  cases ds with
  | nil => exact absurd rfl hne
  | cons c cs =>
    have hc := h c (List.mem_cons_self c cs)
    have hcn : 48 ≤ c.toNat ∧ c.toNat ≤ 57 := by
      simpa [is_ascii_digit] using hc
    have hminus : ¬ c = '-' := by
      intro hh
      rw [hh] at hcn
      revert hcn
      decide
    have hplus : ¬ c = '+' := by
      intro hh
      rw [hh] at hcn
      revert hcn
      decide
    have hall : (c :: cs).all is_ascii_digit = true := List.all_eq_true.mpr h
    simp only [if_neg hminus, if_neg hplus, if_pos hall]

/-- C7: a token `+` followed by a non-empty decimal magnitude and a unit
letter parses to the supplied current moment plus N days for unit `d`,
plus 7N days for unit `w`, and plus 30N days for unit `m` (a day being
86400 seconds in this embedding); the unit letter is lower-cased first. -/
theorem c7_parse_relative_date (ds : Str) (u : Char) (now : Int)
    (hne : ds ≠ []) (hdig : ∀ c ∈ ds, is_ascii_digit c = true) :
    (u.toLower = 'd' → parse_relative_date ('+' :: ds ++ [u]) now
        = .ok (now + (digits_value ds : Int) * 86400))
    ∧ (u.toLower = 'w' → parse_relative_date ('+' :: ds ++ [u]) now
        = .ok (now + (digits_value ds : Int) * 7 * 86400))
    ∧ (u.toLower = 'm' → parse_relative_date ('+' :: ds ++ [u]) now
        = .ok (now + (digits_value ds : Int) * 30 * 86400)) := by
  have hlast : ('+' :: ds ++ [u]).getLast? = some u := by
    have : ('+' :: ds ++ [u]) = ('+' :: ds) ++ [u] := by simp
    rw [this, List.getLast?_concat]
  have hmid : (('+' :: ds ++ [u]).drop 1).dropLast = ds := by
    have : ('+' :: ds ++ [u]).drop 1 = ds ++ [u] := by simp
    rw [this, List.dropLast_concat]
  have hint := py_int_of_digits ds hne hdig
  refine ⟨?_, ?_, ?_⟩ <;> intro hu <;>
    simp only [parse_relative_date, hlast, hmid, hint, hu] <;> rfl

/-- Witness for C7: `+1w` resolved against moment 0 yields 7 days. -/
theorem c7_witness :
    parse_relative_date ('+' :: ['1'] ++ ['w']) 0
      = .ok (0 + (digits_value ['1'] : Int) * 7 * 86400) :=
  (c7_parse_relative_date ['1'] 'w' 0 (by decide) (by decide)).2.1 (by decide)

/-- C8: whenever one of the five mutating operations reports failure (its
only failure modes are an empty description, an unknown task id, and an
unparsable due-date token), the task map it returns is the one it was
given, unchanged, and `save_tasks` was not invoked: every failure check
runs before any mutation. -/
theorem c8_failures_leave_store_unchanged (strp : Str → Option Int) (tasks : Store)
    (desc newd : Str) (due : Option Str) (task_id : Nat) (tP t1 t2 tU : Int) :
    ((add_task strp tasks desc due tP t1 t2).ok = false →
      (add_task strp tasks desc due tP t1 t2).tasks = tasks
        ∧ (add_task strp tasks desc due tP t1 t2).saved = false)
    ∧ ((update_task strp tasks task_id newd due tP tU).ok = false →
      (update_task strp tasks task_id newd due tP tU).tasks = tasks
        ∧ (update_task strp tasks task_id newd due tP tU).saved = false)
    ∧ ((delete_task tasks task_id).ok = false →
      (delete_task tasks task_id).tasks = tasks
        ∧ (delete_task tasks task_id).saved = false)
    ∧ ((mark_in_progress tasks task_id tU).ok = false →
      (mark_in_progress tasks task_id tU).tasks = tasks
        ∧ (mark_in_progress tasks task_id tU).saved = false)
    ∧ ((mark_done tasks task_id tU).ok = false →
      (mark_done tasks task_id tU).tasks = tasks
        ∧ (mark_done tasks task_id tU).saved = false) := by
  refine ⟨?_, ?_, ?_, ?_, ?_⟩
  · unfold add_task
    repeat' split
    all_goals simp
  · unfold update_task
    repeat' split
    all_goals simp
  · unfold delete_task
    repeat' split
    all_goals simp
  · unfold mark_in_progress update_status
    repeat' split
    all_goals simp
  · unfold mark_done update_status
    repeat' split
    all_goals simp

/-- Witness for C8: concrete failing runs of all five operations (empty
description for add, unknown id 1 on the empty store for the rest). -/
theorem c8_witness :
    ((add_task (fun _ => none) [] [] none 0 0 0).tasks = []
        ∧ (add_task (fun _ => none) [] [] none 0 0 0).saved = false)
    ∧ ((update_task (fun _ => none) [] 1 ['a'] none 0 0).tasks = []
        ∧ (update_task (fun _ => none) [] 1 ['a'] none 0 0).saved = false)
    ∧ ((delete_task [] 1).tasks = [] ∧ (delete_task [] 1).saved = false)
    ∧ ((mark_in_progress [] 1 0).tasks = [] ∧ (mark_in_progress [] 1 0).saved = false)
    ∧ ((mark_done [] 1 0).tasks = [] ∧ (mark_done [] 1 0).saved = false) := by
  have h := c8_failures_leave_store_unchanged (fun _ => none) [] [] ['a'] none 1 0 0 0 0
  exact ⟨h.1 (by decide), h.2.1 (by decide), h.2.2.1 (by decide),
    h.2.2.2.1 (by decide), h.2.2.2.2 (by decide)⟩

/-- C9: the rendered due-date cell is "No due date" when the task has no
due date; otherwise it is the short-format timestamp, wrapped in the
asterisk pair exactly when the due date is strictly before the current
moment and the status is not `done`; in particular a `done` task never
carries the overdue marker. -/
theorem c9_due_cell (fmt : Int → Str) (task : Task) (now : Int) :
    (task.dueDate = none → due_cell fmt task now = "No due date".data)
    ∧ (∀ d, task.dueDate = some d →
        (due_cell fmt task now = '*' :: fmt d ++ ['*']
          ↔ (d < now ∧ task.status ≠ "done")))
    ∧ (∀ d, task.dueDate = some d → ¬(d < now ∧ task.status ≠ "done") →
        due_cell fmt task now = fmt d) := by
  refine ⟨?_, ?_, ?_⟩
  · intro h
    simp only [due_cell, h]
  · intro d hd
    constructor
    · intro heq
      by_contra hcon
      simp only [due_cell, hd, if_neg hcon] at heq
      have := congrArg List.length heq
      simp at this
      omega
    · intro hcond
      simp only [due_cell, hd, if_pos hcond]
  · intro d hd hcon
    simp only [due_cell, hd, if_neg hcon]

/-- Witness for C9: an overdue, not-done task is wrapped in asterisks; a
done task with the same past due date is not. -/
theorem c9_witness :
    (due_cell (fun _ => ['X']) ⟨['a'], "todo", 0, 0, some 3⟩ 10 = '*' :: ['X'] ++ ['*']
      ↔ ((3 : Int) < 10 ∧ ("todo" : String) ≠ "done"))
    ∧ due_cell (fun _ => ['X']) ⟨['a'], "done", 0, 0, some 3⟩ 10 = ['X'] :=
  ⟨(c9_due_cell (fun _ => ['X']) ⟨['a'], "todo", 0, 0, some 3⟩ 10).2.1 3 rfl,
    (c9_due_cell (fun _ => ['X']) ⟨['a'], "done", 0, 0, some 3⟩ 10).2.2 3 rfl
      (by decide)⟩

/-- C10: with a non-empty description, `add` given an explicitly empty
due-date token behaves exactly as with no due-date argument at all, for
every possible behaviour of the date parser (the parser is never invoked):
it succeeds and appends a record with no due date.  In `update`, by
contrast, the empty token clears the stored due date. -/
theorem c10_add_empty_due_token (strp strp2 : Str → Option Int) (tasks : Store)
    (desc newd : Str) (task_id : Nat) (old : Task) (tP t1 t2 tU : Int)
    (hd : desc ≠ []) :
    add_task strp tasks desc (some []) tP t1 t2
        = add_task strp2 tasks desc none tP t1 t2
    ∧ (add_task strp tasks desc (some []) tP t1 t2).ok = true
    ∧ (add_task strp tasks desc (some []) tP t1 t2).tasks
        = tasks ++ [(next_id tasks, ⟨desc, "todo", t1, t2, none⟩)]
    ∧ (tasks.lookup task_id = some old → newd ≠ [] →
        (update_task strp tasks task_id newd (some []) tP tU).tasks.lookup task_id
          = some { old with description := newd, updatedAt := tU, dueDate := none }) := by
  refine ⟨?_, ?_, ?_, ?_⟩
  · simp only [add_task, if_neg hd, reduceIte]
  · simp only [add_task, if_neg hd, reduceIte]
  · simp only [add_task, if_neg hd, reduceIte]
  · intro hold hnew
    simp only [update_task, hold, if_neg hnew, reduceIte]
    exact lookup_set_task tasks task_id old _ hold

/-- Witness for C10 at a concrete store, description and parser pair. -/
theorem c10_witness :
    add_task (fun _ => none) [] ['a'] (some []) 0 0 1
        = add_task (fun _ => some 99) [] ['a'] none 0 0 1
    ∧ (add_task (fun _ => none) [] ['a'] (some []) 0 0 1).ok = true
    ∧ (add_task (fun _ => none) [] ['a'] (some []) 0 0 1).tasks
        = [] ++ [(next_id [], ⟨['a'], "todo", 0, 1, none⟩)]
    ∧ (([(5, ⟨['b'], "todo", 0, 0, some 7⟩)] : Store).lookup 5
          = some ⟨['b'], "todo", 0, 0, some 7⟩ → (['c'] : Str) ≠ [] →
        (update_task (fun _ => none) [(5, ⟨['b'], "todo", 0, 0, some 7⟩)] 5 ['c']
            (some []) 0 9).tasks.lookup 5
          = some ⟨['c'], "todo", 0, 9, none⟩) := by
  have h1 := c10_add_empty_due_token (fun _ => none) (fun _ => some 99) [] ['a'] ['c'] 1
    ⟨['b'], "todo", 0, 0, some 7⟩ 0 0 1 9 (by decide)
  have h2 := c10_add_empty_due_token (fun _ => none) (fun _ => some 99)
    [(5, ⟨['b'], "todo", 0, 0, some 7⟩)] ['a'] ['c'] 5
    ⟨['b'], "todo", 0, 0, some 7⟩ 0 0 1 9 (by decide)
  exact ⟨h1.1, h1.2.1, h1.2.2.1, fun hold hnew => h2.2.2.2 hold hnew⟩

end CLI
